import Mathlib

/-!
A verification development for the Antithesis Python SDK's assertion-tracking
core.  The definitions below are shallow embeddings of the Python source:

* `TrackerInfo`, `get_tracker_entry` embed `src/tracking.py`;
* `assert_impl`, `assert_raw`, `unreachable` embed
  `src/antithesis_sdk/assertions.py` (the `src/assertions.py` draft is
  line-for-line identical in the embedded logic);
* the handler definitions embed `src/internal/handlers.py` and
  `src/antithesis_sdk/_internal/handlers.py`;
* `random_choice` embeds `src/antithesis/random.py` (identical to
  `src/antithesis_sdk/random.py`).

Mutable module state (the process-wide tracker dict and the list of events
handed to `dispatch_output`) is made explicit as an `SDKState` value threaded
through the functions; emitting an event is modelled as appending the built
`AssertInfo` record to the state's `emitted` list, in call order.
-/

namespace Antithesis

/-- Embeds `class TrackerInfo` of `src/tracking.py`: per-identity canonical
origin plus monotone pass/fail counters. -/
structure TrackerInfo where
  filename : String
  classname : String
  passes : Nat
  fails : Nat
deriving DecidableEq, Repr

/-- `TrackerInfo.inc_passes`: `self._passes = self._passes + 1`. -/
def TrackerInfo.inc_passes (t : TrackerInfo) : TrackerInfo :=
  { t with passes := t.passes + 1 }

/-- `TrackerInfo.inc_fails`: `self._fails = self._fails + 1`. -/
def TrackerInfo.inc_fails (t : TrackerInfo) : TrackerInfo :=
  { t with fails := t.fails + 1 }

/-- The process-wide `assert_tracker: Dict[str, TrackerInfo]`, embedded as an
association list keyed by the assertion id. -/
abbrev Tracker := List (String × TrackerInfo)

/-- Dictionary lookup `tracker.get(id)`. -/
def tracker_get : Tracker → String → Option TrackerInfo
  | [], _ => none
  | (k, v) :: rest, i => if k = i then some v else tracker_get rest i

/-- Dictionary update `tracker[id] = entry` (in Python the entry object is
mutated in place; here the binding for the key is replaced). -/
def tracker_set : Tracker → String → TrackerInfo → Tracker
  | [], i, e => [(i, e)]
  | (k, v) :: rest, i, e =>
      if k = i then (i, e) :: rest else (k, v) :: tracker_set rest i e

/-- Embeds `get_tracker_entry` of `src/tracking.py`: look the id up; on a miss
create a zero-count entry carrying the supplied filename/classname and store
it.  Returns the entry together with the (possibly extended) tracker. -/
def get_tracker_entry (tracker : Tracker) (i filename classname : String) :
    TrackerInfo × Tracker :=
  match tracker_get tracker i with
  | some entry => (entry, tracker)
  | none =>
      let entry : TrackerInfo := ⟨filename, classname, 0, 0⟩
      (entry, (i, entry) :: tracker)

/-- Embeds the `loc_info` dictionary built by `get_location_info` /
`assert_raw`: keys `filename`, `function`, `class`, `begin_line`,
`begin_column`. -/
structure LocInfo where
  filename : String
  function : String
  classname : String
  begin_line : Int
  begin_column : Int
deriving DecidableEq, Repr

/-- Embeds `class AssertInfo` of `assertinfo.py`.  The `details` mapping is an
arbitrary JSON-serializable value in Python, so it is a type parameter here. -/
structure AssertInfo (α : Type) where
  hit : Bool
  must_hit : Bool
  assert_type : String
  display_type : String
  message : String
  cond : Bool
  assert_id : String
  loc_info : LocInfo
  details : α
deriving DecidableEq, Repr

/-- The mutable module state touched by `assert_impl`: the tracker dict plus
the sequence of records handed to `emit_assert`/`dispatch_output`, in call
order. -/
structure SDKState (α : Type) where
  tracker : Tracker
  emitted : List (AssertInfo α)
deriving DecidableEq, Repr

/-- The state at interpreter start: empty tracker, nothing emitted. -/
def initState {α : Type} : SDKState α := ⟨[], []⟩

/-- The reconciliation step of `assert_impl` (lines 112-118 of
`src/antithesis_sdk/assertions.py`): overwrite the location's filename and
class with the tracker entry's canonical values whenever they differ. -/
def reconcile_loc (loc : LocInfo) (entry : TrackerInfo) : LocInfo :=
  let loc1 :=
    if loc.filename ≠ entry.filename then
      { loc with filename := entry.filename } else loc
  if loc.classname ≠ entry.classname then
    { loc1 with classname := entry.classname } else loc1

/-- Embeds `assert_impl` of `src/antithesis_sdk/assertions.py` (identical to
`src/assertions.py`): resolve the tracker entry, reconcile the location,
build the record; if `hit` is false emit unconditionally without touching
counts, otherwise increment the matching counter and emit exactly when the
post-increment count equals 1. -/
def assert_impl {α : Type} (cond : Bool) (message : String) (details : α)
    (loc_info : LocInfo) (hit must_hit : Bool)
    (assert_type display_type assert_id : String)
    (s : SDKState α) : SDKState α :=
  let filename := loc_info.filename
  let classname := loc_info.classname
  let found := get_tracker_entry s.tracker assert_id filename classname
  let tracker_entry := found.1
  let tracker1 := found.2
  let loc2 := reconcile_loc loc_info tracker_entry
  let assert_info : AssertInfo α :=
    ⟨hit, must_hit, assert_type, display_type, message, cond, assert_id,
      loc2, details⟩
  if !hit then
    { tracker := tracker1, emitted := s.emitted ++ [assert_info] }
  else if cond then
    let entry1 := tracker_entry.inc_passes
    let tracker2 := tracker_set tracker1 assert_id entry1
    if entry1.passes = 1 then
      { tracker := tracker2, emitted := s.emitted ++ [assert_info] }
    else
      { tracker := tracker2, emitted := s.emitted }
  else
    let entry1 := tracker_entry.inc_fails
    let tracker2 := tracker_set tracker1 assert_id entry1
    if entry1.fails = 1 then
      { tracker := tracker2, emitted := s.emitted ++ [assert_info] }
    else
      { tracker := tracker2, emitted := s.emitted }

/-- Embeds `assert_raw` of `src/antithesis_sdk/assertions.py`: bundle the
explicit location arguments into a `loc_info` record and delegate to
`assert_impl` with the caller-supplied `assert_id`. -/
def assert_raw {α : Type} (condition : Bool) (message : String) (details : α)
    (loc_filename loc_function loc_class : String)
    (loc_begin_line loc_begin_column : Int)
    (hit must_hit : Bool) (assert_type display_type assert_id : String)
    (s : SDKState α) : SDKState α :=
  assert_impl condition message details
    ⟨loc_filename, loc_function, loc_class, loc_begin_line, loc_begin_column⟩
    hit must_hit assert_type display_type assert_id s

/-- `_WAS_HIT = True` (`src/antithesis_sdk/assertions.py` line 60). -/
def _WAS_HIT : Bool := true

/-- `_MUST_BE_HIT = True` (line 61). -/
def _MUST_BE_HIT : Bool := true

/-- `_OPTIONALLY_HIT = False` (line 62). -/
def _OPTIONALLY_HIT : Bool := false

/-- `_ASSERTING_TRUE = True` (line 63). -/
def _ASSERTING_TRUE : Bool := true

/-- `_ASSERTING_FALSE = True` (line 64) — the source really assigns `True`
to this constant, although its own comment reads
"Assertion condition should be False". -/
def _ASSERTING_FALSE : Bool := true

/-- Embeds `_make_key`: the tracker key is the message verbatim. -/
def _make_key (message : String) (_loc_info : LocInfo) : String := message

/-- Embeds the public verb `unreachable` of `src/antithesis_sdk/assertions.py`
(lines 282-310).  Stack-frame capture is outside the embedding, so the
location record produced by `_get_location_info` is taken as an argument.
The verb passes `_ASSERTING_FALSE` as the condition and `_OPTIONALLY_HIT` as
`must_hit`, with display type `AssertionDisplay.ALWAYS` (the string
"Always") whose assert type is the string "always". -/
def unreachable {α : Type} (message : String) (details : α)
    (location_info : LocInfo) (s : SDKState α) : SDKState α :=
  assert_impl _ASSERTING_FALSE message details location_info _WAS_HIT
    _OPTIONALLY_HIT "always" "Always" (_make_key message location_info) s

/-- The three possible active handlers after `_setup_handler` runs, identified
by which class's `get()` produced them. -/
inductive HandlerKind where
  | voidstar
  | localFile (file : String)
  | noop
deriving DecidableEq, Repr

/-- Embeds `VoidstarHandler.get` of
`src/antithesis_sdk/_internal/handlers.py`: capable iff
`dlopen("/usr/lib/libvoidstar.so")` succeeded, which is the boolean argument
here; otherwise `None`. -/
def VoidstarHandler.get (libLoaded : Bool) : Option HandlerKind :=
  if libLoaded then some HandlerKind.voidstar else none

/-- Embeds `LocalHandler.get`: capable iff the environment variable
`ANTITHESIS_SDK_LOCAL_OUTPUT` is set, in which case the handler holds the
configured file path; otherwise `None`. -/
def LocalHandler.get (localOutputEnv : Option String) : Option HandlerKind :=
  match localOutputEnv with
  | none => none
  | some file => some (HandlerKind.localFile file)

/-- Embeds `NoopHandler.get`: always capable. -/
def NoopHandler.get : HandlerKind := HandlerKind.noop

/-- Embeds `_setup_handler` of `src/antithesis_sdk/_internal/handlers.py`
(line 142): `VoidstarHandler.get() or LocalHandler.get() or
NoopHandler.get()` — Python `or` takes the first non-`None` value. -/
def _setup_handler (libLoaded : Bool) (localOutputEnv : Option String) :
    HandlerKind :=
  match VoidstarHandler.get libLoaded with
  | some h => h
  | none =>
      match LocalHandler.get localOutputEnv with
      | some h => h
      | none => NoopHandler.get

/-- Embeds the `handles_output` property of each handler class: `True` for
`VoidstarHandler` (once selected its lib is loaded) and `LocalHandler`,
`False` for `NoopHandler`. -/
def HandlerKind.handles_output : HandlerKind → Bool
  | HandlerKind.voidstar => true
  | HandlerKind.localFile _ => true
  | HandlerKind.noop => false

/-- Embeds `NoopHandler.output` (`return` — it touches nothing): the local
file system state, modelled as the optional content of the configured file,
is returned unchanged. -/
def NoopHandler.output (fileState : Option String) (_value : String) :
    Option String := fileState

namespace Internal

/-- Embeds `LocalHandler.output` of `src/internal/handlers.py` (lines 46-48):
the file is opened with mode `"a"`, so the value is appended after whatever
the file already contains. -/
def LocalHandler.output (fileContents value : String) : String :=
  fileContents ++ value

end Internal

namespace SdkInternal

/-- Embeds `LocalHandler.output` of
`src/antithesis_sdk/_internal/handlers.py` (lines 66-68): the file is opened
with mode `"w"`, which truncates, so after the call the file contains exactly
the value written. -/
def LocalHandler.output (_fileContents value : String) : String := value

end SdkInternal

/-- Folds a sequence of `output` calls over an initial file content: the file
content after running every write in order. -/
def runOutputs (out : String → String → String) (start : String)
    (values : List String) : String :=
  values.foldl out start

/-- Embeds `random_choice` of `src/antithesis/random.py` (identical to
`src/antithesis_sdk/random.py`).  The 64-bit value that `get_random()` would
return is passed explicitly as `val`; the second component of the result
records whether `get_random()` was called at all (the length-0 and length-1
branches return before requesting randomness). -/
def random_choice {α : Type} (things : List α) (val : Int) :
    Option α × Bool :=
  let lx := things.length
  if lx = 0 then (none, false)
  else if lx = 1 then (things[0]?, false)
  else
    let v := if val < 0 then 0 - val else val
    let idx := v % (lx : Int)
    (things[idx.toNat]?, true)

/-! ### Helper lemmas -/

/-- Folding string append over a list factors the starting content to the
front. -/
lemma foldl_str_append (vs : List String) :
    ∀ pre : String, vs.foldl (fun a b => a ++ b) pre
      = pre ++ vs.foldl (fun a b => a ++ b) "" := by
  induction vs with
  | nil => intro pre; simp
  | cons v vs ih =>
      intro pre
      simp only [List.foldl_cons]
      rw [ih (pre ++ v), ih ("" ++ v)]
      simp [String.append_assoc]

/-- `String.join` unfolds on a cons cell. -/
lemma str_join_cons (v : String) (vs : List String) :
    String.join (v :: vs) = v ++ String.join vs := by
  simp only [String.join, List.foldl_cons]
  rw [foldl_str_append vs ("" ++ v), foldl_str_append vs ""]
  simp [String.append_assoc]

/-- Reconciliation always yields the entry's canonical filename and class and
keeps the remaining location fields. -/
lemma reconcile_loc_spec (loc : LocInfo) (entry : TrackerInfo) :
    (reconcile_loc loc entry).filename = entry.filename ∧
    (reconcile_loc loc entry).classname = entry.classname ∧
    (reconcile_loc loc entry).function = loc.function ∧
    (reconcile_loc loc entry).begin_line = loc.begin_line ∧
    (reconcile_loc loc entry).begin_column = loc.begin_column := by
  unfold reconcile_loc
  split_ifs with h1 h2 h2 <;> simp_all

/-- Reconciling against an entry that already carries the location's own
filename and class is the identity. -/
lemma reconcile_loc_self (loc : LocInfo) (p q : Nat) :
    reconcile_loc loc ⟨loc.filename, loc.classname, p, q⟩ = loc := by
  simp [reconcile_loc]

/-! ### Claims -/

/-- C4 (code evaluation at the failing input): calling the public verb
`unreachable` once on a fresh identity emits one event whose condition is
`true` — not `false` as the spec's verb table demands — because the source
constant `_ASSERTING_FALSE` is assigned `True`; the call increments the pass
counter instead of the fail counter.  `must_hit` is `false` as claimed. -/
theorem C4_unreachable_eval :
    (unreachable "impossible state" () ⟨"app.py", "do_work", "", 10, 0⟩
        (initState (α := Unit))).emitted.length = 1 ∧
    (∀ info ∈ (unreachable "impossible state" () ⟨"app.py", "do_work", "", 10, 0⟩
        (initState (α := Unit))).emitted,
      info.cond = true ∧ info.must_hit = false) ∧
    tracker_get (unreachable "impossible state" ()
        ⟨"app.py", "do_work", "", 10, 0⟩
        (initState (α := Unit))).tracker "impossible state"
      = some ⟨"app.py", "", 1, 0⟩ := by
  refine ⟨rfl, ?_, rfl⟩
  intro info hinfo
  simp [unreachable, assert_impl, _make_key, _ASSERTING_FALSE, _WAS_HIT,
    _OPTIONALLY_HIT, initState, get_tracker_entry, tracker_get, tracker_set,
    TrackerInfo.inc_passes, reconcile_loc] at hinfo
  simp [hinfo]

/-- C5 (counterexample to the claim as stated): with the
`src/antithesis_sdk/_internal/handlers.py` variant of `LocalHandler.output`,
two calls writing "x" then "y" leave the file holding "y", not the
concatenation "xy" — the file is opened with mode "w", which truncates. -/
theorem C5_truncate_counterexample :
    ¬ (runOutputs SdkInternal.LocalHandler.output "" ["x", "y"] = "x" ++ "y") := by
  decide

/-- C5 (amended): the `src/internal/handlers.py` variant of
`LocalHandler.output` opens with mode "a" and appends, so prior content is
preserved and after N calls the file holds the concatenation of all N strings
in call order; the `src/antithesis_sdk/_internal/handlers.py` variant opens
with mode "w" and truncates, so after any sequence of calls the file holds
exactly the last string written. -/
theorem C5_append_vs_truncate :
    (∀ (pre : String) (vs : List String),
       runOutputs Internal.LocalHandler.output pre vs = pre ++ String.join vs) ∧
    (∀ (pre v : String) (vs : List String),
       runOutputs SdkInternal.LocalHandler.output pre (vs ++ [v]) = v) := by
  constructor
  · intro pre vs
    induction vs generalizing pre with
    | nil => simp [runOutputs, String.join]
    | cons v vs ih =>
        rw [str_join_cons]
        simp only [runOutputs, List.foldl_cons] at ih ⊢
        rw [show Internal.LocalHandler.output pre v = pre ++ v from rfl, ih]
        simp [String.append_assoc]
  · intro pre v vs
    simp [runOutputs, List.foldl_append, SdkInternal.LocalHandler.output]

/-- C6: `_setup_handler` tries the Voidstar handler, then the local-file
handler, then the no-op handler, first capable one winning; with the platform
library unloadable and the local-output variable unset the result is the
no-op handler, whose `handles_output` is `false` and whose `output` leaves
the file state untouched. -/
theorem C6_handler_selection :
    (∀ env, _setup_handler true env = HandlerKind.voidstar) ∧
    (∀ f, _setup_handler false (some f) = HandlerKind.localFile f) ∧
    _setup_handler false none = HandlerKind.noop ∧
    (_setup_handler false none).handles_output = false ∧
    (∀ fs v, NoopHandler.output fs v = fs) := by
  exact ⟨fun _ => rfl, fun _ => rfl, rfl, rfl, fun _ _ => rfl⟩

/-- C7: `random_choice` on the empty list returns no value; on a singleton it
returns the element without consuming randomness; on a list of more than one
element it consumes one random value and returns the element at index
`abs(val) mod length`, which is always an element of the input list. -/
theorem C7_random_choice :
    (∀ (α : Type) (v : Int), random_choice ([] : List α) v = (none, false)) ∧
    (∀ (α : Type) (x : α) (v : Int), random_choice [x] v = (some x, false)) ∧
    (∀ (α : Type) (things : List α) (v : Int), 1 < things.length →
       (random_choice things v).2 = true ∧
       (random_choice things v).1 =
         things[((if v < 0 then 0 - v else v) % (things.length : Int)).toNat]? ∧
       ∃ a, (random_choice things v).1 = some a ∧ a ∈ things) := by
  refine ⟨fun α v => rfl, fun α x v => rfl, fun α things v h => ?_⟩
  have h0 : things.length ≠ 0 := by omega
  have h1 : things.length ≠ 1 := by omega
  have habs : 0 ≤ (if v < 0 then 0 - v else v) := by split <;> omega
  have hmod0 : 0 ≤ (if v < 0 then 0 - v else v) % (things.length : Int) :=
    Int.emod_nonneg _ (by exact_mod_cast h0)
  have hmodlt : (if v < 0 then 0 - v else v) % (things.length : Int)
      < (things.length : Int) :=
    Int.emod_lt_of_pos _ (by exact_mod_cast Nat.pos_of_ne_zero h0)
  have hidx : ((if v < 0 then 0 - v else v) % (things.length : Int)).toNat
      < things.length := by omega
  refine ⟨?_, ?_, ?_⟩
  · simp [random_choice, h0, h1]
  · simp [random_choice, h0, h1]
  · refine ⟨things.get ⟨_, hidx⟩, ?_, List.get_mem things _ hidx⟩
    simp [random_choice, h0, h1, List.getElem?_eq_getElem hidx]

/-- C7 witness: `random_choice [10, 20, 30] (-7)` consumes randomness and
returns element `abs(-7) mod 3 = 1`, namely `20`. -/
theorem C7_random_choice_witness :
    1 < ([10, 20, 30] : List Nat).length ∧
    (random_choice ([10, 20, 30] : List Nat) (-7)).1 = some 20 ∧
    (random_choice ([10, 20, 30] : List Nat) (-7)).2 = true := by
  have h := C7_random_choice.2.2 Nat [10, 20, 30] (-7) (by decide)
  exact ⟨by decide, by rw [h.2.1]; decide, h.1⟩

/-- C2: `get_tracker_entry` is an idempotent lookup — a first call for an
identity creates and stores a zero-count entry carrying that call's
filename/classname, every later call returns the stored entry unchanged
regardless of the arguments passed — and every record `assert_impl` emits
carries the stored entry's filename and class. -/
theorem C2_tracker_canonical (α : Type) :
    (∀ (tr : Tracker) (aid fn cn : String), tracker_get tr aid = none →
       (get_tracker_entry tr aid fn cn).1 = ⟨fn, cn, 0, 0⟩ ∧
       tracker_get (get_tracker_entry tr aid fn cn).2 aid = some ⟨fn, cn, 0, 0⟩) ∧
    (∀ (tr : Tracker) (aid fn cn : String) (e : TrackerInfo),
       tracker_get tr aid = some e → get_tracker_entry tr aid fn cn = (e, tr)) ∧
    (∀ (s : SDKState α) (c : Bool) (m : String) (d : α) (loc : LocInfo)
       (hit mh : Bool) (ty dy aid : String),
       ∀ info ∈ (assert_impl c m d loc hit mh ty dy aid s).emitted,
         info ∈ s.emitted ∨
           (info.loc_info.filename
              = (get_tracker_entry s.tracker aid loc.filename loc.classname).1.filename ∧
            info.loc_info.classname
              = (get_tracker_entry s.tracker aid loc.filename loc.classname).1.classname)) := by
  refine ⟨?_, ?_, ?_⟩
  · intro tr aid fn cn h
    refine ⟨by simp [get_tracker_entry, h], ?_⟩
    simp [get_tracker_entry, h, tracker_get]
  · intro tr aid fn cn e h
    simp [get_tracker_entry, h]
  · intro s c m d loc hit mh ty dy aid info hinfo
    simp only [assert_impl] at hinfo
    split at hinfo
    · simp only [List.mem_append, List.mem_singleton] at hinfo
      rcases hinfo with h | h
      · exact Or.inl h
      · subst h
        exact Or.inr ⟨(reconcile_loc_spec _ _).1, (reconcile_loc_spec _ _).2.1⟩
    · split at hinfo
      · split at hinfo
        · simp only [List.mem_append, List.mem_singleton] at hinfo
          rcases hinfo with h | h
          · exact Or.inl h
          · subst h
            exact Or.inr ⟨(reconcile_loc_spec _ _).1, (reconcile_loc_spec _ _).2.1⟩
        · exact Or.inl hinfo
      · split at hinfo
        · simp only [List.mem_append, List.mem_singleton] at hinfo
          rcases hinfo with h | h
          · exact Or.inl h
          · subst h
            exact Or.inr ⟨(reconcile_loc_spec _ _).1, (reconcile_loc_spec _ _).2.1⟩
        · exact Or.inl hinfo

/-- C2 witness: a fresh lookup for id "k" stores a zero-count entry with the
supplied names, a second lookup with other names returns it unchanged, and
the record emitted by `assert_impl` for "k" carries the stored filename. -/
theorem C2_tracker_canonical_witness :
    (tracker_get ([] : Tracker) "k" = none ∧
     (get_tracker_entry ([] : Tracker) "k" "a.py" "C").1 = ⟨"a.py", "C", 0, 0⟩) ∧
    (tracker_get [("k", (⟨"a.py", "C", 0, 0⟩ : TrackerInfo))] "k"
        = some ⟨"a.py", "C", 0, 0⟩ ∧
     get_tracker_entry [("k", (⟨"a.py", "C", 0, 0⟩ : TrackerInfo))] "k" "b.py" "D"
        = (⟨"a.py", "C", 0, 0⟩, [("k", (⟨"a.py", "C", 0, 0⟩ : TrackerInfo))])) := by
  have h1 := ((C2_tracker_canonical Unit).1 [] "k" "a.py" "C" (by rfl)).1
  have h2 := (C2_tracker_canonical Unit).2.1
    [("k", (⟨"a.py", "C", 0, 0⟩ : TrackerInfo))] "k" "b.py" "D"
    ⟨"a.py", "C", 0, 0⟩ (by rfl)
  exact ⟨⟨rfl, h1⟩, ⟨rfl, h2⟩⟩

/-- C3: a call to `assert_impl` with `hit = false` emits exactly one event,
whatever the condition and whatever state prior calls left behind, and every
tracker entry present before the call (with its pass and fail counts) is
untouched. -/
theorem C3_catalog_always_emits {α : Type} (c : Bool) (m : String) (d : α)
    (loc : LocInfo) (mh : Bool) (ty dy aid : String) (s : SDKState α) :
    (∃ info : AssertInfo α,
       (assert_impl c m d loc false mh ty dy aid s).emitted
         = s.emitted ++ [info]) ∧
    (∀ k e, tracker_get s.tracker k = some e →
       tracker_get (assert_impl c m d loc false mh ty dy aid s).tracker k
         = some e) := by
  constructor
  · refine ⟨⟨false, mh, ty, dy, m, c, aid,
      reconcile_loc loc (get_tracker_entry s.tracker aid loc.filename loc.classname).1,
      d⟩, ?_⟩
    simp [assert_impl]
  · intro k e hk
    have htr : (assert_impl c m d loc false mh ty dy aid s).tracker
        = (get_tracker_entry s.tracker aid loc.filename loc.classname).2 := by
      simp [assert_impl]
    rw [htr]
    unfold get_tracker_entry
    cases h : tracker_get s.tracker aid with
    | some e2 => simpa using hk
    | none =>
        have hne : aid ≠ k := by
          rintro rfl
          rw [h] at hk
          cases hk
        simpa [tracker_get, hne] using hk

/-- C3 witness: a catalog replay (`hit=false`, condition false) for "m2" on a
state where "m2" already has two passes and one fail emits one more event and
leaves the counts at (2, 1). -/
theorem C3_catalog_always_emits_witness :
    (∃ info : AssertInfo Unit,
       (assert_impl false "m2" () ⟨"c.py", "g", "", 4, 0⟩ false true
          "always" "Always" "m2"
          ⟨[("m2", ⟨"c.py", "", 2, 1⟩)], []⟩).emitted = [] ++ [info]) ∧
    tracker_get (assert_impl false "m2" () ⟨"c.py", "g", "", 4, 0⟩ false true
        "always" "Always" "m2"
        ⟨[("m2", ⟨"c.py", "", 2, 1⟩)], []⟩).tracker "m2"
      = some ⟨"c.py", "", 2, 1⟩ := by
  have h := C3_catalog_always_emits (α := Unit) false "m2" ()
    ⟨"c.py", "g", "", 4, 0⟩ true "always" "Always" "m2"
    ⟨[("m2", ⟨"c.py", "", 2, 1⟩)], []⟩
  exact ⟨h.1, h.2 "m2" ⟨"c.py", "", 2, 1⟩ (by rfl)⟩

/-- C9: `assert_raw` deduplicates on the explicit `assert_id` argument, not
on the message — two calls with different messages but one `assert_id` share
one tracker entry and its counters, so the second same-polarity call does not
emit; two calls with the same message but distinct `assert_id` values get
separate entries and each first call emits. -/
theorem C9_dedup_keyed_on_assert_id {α : Type} (m1 m2 msg : String) (d : α)
    (c : Bool) (fn fu cl : String) (bl bc : Int) (mh : Bool) (ty dy : String)
    (aid aid1 aid2 : String) (hne : aid1 ≠ aid2) :
    ((assert_raw c m1 d fn fu cl bl bc true mh ty dy aid
        (initState (α := α))).emitted.length = 1 ∧
     (assert_raw c m2 d fn fu cl bl bc true mh ty dy aid
        (assert_raw c m1 d fn fu cl bl bc true mh ty dy aid
          (initState (α := α)))).emitted.length = 1 ∧
     tracker_get (assert_raw c m2 d fn fu cl bl bc true mh ty dy aid
        (assert_raw c m1 d fn fu cl bl bc true mh ty dy aid
          (initState (α := α)))).tracker aid
       = some ⟨fn, cl, if c then 2 else 0, if c then 0 else 2⟩) ∧
    ((assert_raw c msg d fn fu cl bl bc true mh ty dy aid2
        (assert_raw c msg d fn fu cl bl bc true mh ty dy aid1
          (initState (α := α)))).emitted.length = 2 ∧
     tracker_get (assert_raw c msg d fn fu cl bl bc true mh ty dy aid2
        (assert_raw c msg d fn fu cl bl bc true mh ty dy aid1
          (initState (α := α)))).tracker aid1
       = some ⟨fn, cl, if c then 1 else 0, if c then 0 else 1⟩ ∧
     tracker_get (assert_raw c msg d fn fu cl bl bc true mh ty dy aid2
        (assert_raw c msg d fn fu cl bl bc true mh ty dy aid1
          (initState (α := α)))).tracker aid2
       = some ⟨fn, cl, if c then 1 else 0, if c then 0 else 1⟩) := by
  have hne2 : aid2 ≠ aid1 := Ne.symm hne
  cases c <;>
    simp [assert_raw, assert_impl, get_tracker_entry, tracker_get, tracker_set,
      TrackerInfo.inc_passes, TrackerInfo.inc_fails, initState, reconcile_loc,
      hne, hne2]

/-- C9 witness: with `assert_id` "shared", the calls carrying messages "m1"
and "m2" emit once in total; with ids "id1" and "id2" sharing message "m",
both calls emit. -/
theorem C9_dedup_keyed_on_assert_id_witness :
    "id1" ≠ "id2" ∧
    (assert_raw true "m2" () "f.py" "g" "" 1 0 true true "always" "Always"
        "shared"
        (assert_raw true "m1" () "f.py" "g" "" 1 0 true true "always" "Always"
          "shared" (initState (α := Unit)))).emitted.length = 1 ∧
    (assert_raw true "m" () "f.py" "g" "" 1 0 true true "always" "Always"
        "id2"
        (assert_raw true "m" () "f.py" "g" "" 1 0 true true "always" "Always"
          "id1" (initState (α := Unit)))).emitted.length = 2 := by
  have h := C9_dedup_keyed_on_assert_id (α := Unit) "m1" "m2" "m" () true
    "f.py" "g" "" 1 0 true "always" "Always" "shared" "id1" "id2" (by decide)
  exact ⟨by decide, h.1.2.1, h.2.1⟩

/-- C10: a catalog replay (`hit=false`) for a fresh identity creates that
identity's tracker entry with the catalog line's filename and class and both
counters zero; a later first runtime pass emits an event carrying the
catalog's filename and class, and a first runtime fail still emits as well —
the replay consumed no count. -/
theorem C10_catalog_seeds_tracker {α : Type} (ccat : Bool) (mcat m : String)
    (dcat d : α) (loc_cat loc_rt : LocInfo) (mhc mh : Bool)
    (tyc dyc ty dy aid : String) :
    let s1 := assert_impl ccat mcat dcat loc_cat false mhc tyc dyc aid
      (initState (α := α))
    let s2 := assert_impl true m d loc_rt true mh ty dy aid s1
    let s3 := assert_impl false m d loc_rt true mh ty dy aid s2
    tracker_get s1.tracker aid
        = some ⟨loc_cat.filename, loc_cat.classname, 0, 0⟩ ∧
    s1.emitted.length = 1 ∧
    (∃ info : AssertInfo α,
       s2.emitted = s1.emitted ++ [info] ∧
       info.loc_info.filename = loc_cat.filename ∧
       info.loc_info.classname = loc_cat.classname ∧
       info.cond = true) ∧
    s3.emitted.length = 3 ∧
    tracker_get s3.tracker aid
        = some ⟨loc_cat.filename, loc_cat.classname, 1, 1⟩ := by
  intro s1 s2 s3
  have h1 : s1 = ⟨[(aid, ⟨loc_cat.filename, loc_cat.classname, 0, 0⟩)],
      [⟨false, mhc, tyc, dyc, mcat, ccat, aid, loc_cat, dcat⟩]⟩ := by
    simp [s1, assert_impl, initState, get_tracker_entry, tracker_get,
      reconcile_loc_self]
  have h2 : s2 = ⟨[(aid, ⟨loc_cat.filename, loc_cat.classname, 1, 0⟩)],
      s1.emitted ++ [⟨true, mh, ty, dy, m, true, aid,
        reconcile_loc loc_rt ⟨loc_cat.filename, loc_cat.classname, 0, 0⟩, d⟩]⟩ := by
    simp [s2, h1, assert_impl, get_tracker_entry, tracker_get, tracker_set,
      TrackerInfo.inc_passes]
  have h3 : s3 = ⟨[(aid, ⟨loc_cat.filename, loc_cat.classname, 1, 1⟩)],
      s2.emitted ++ [⟨true, mh, ty, dy, m, false, aid,
        reconcile_loc loc_rt ⟨loc_cat.filename, loc_cat.classname, 1, 0⟩, d⟩]⟩ := by
    simp [s3, h2, h1, assert_impl, get_tracker_entry, tracker_get, tracker_set,
      TrackerInfo.inc_fails]
  refine ⟨by simp [h1, tracker_get], by simp [h1], ?_, ?_, ?_⟩
  · refine ⟨⟨true, mh, ty, dy, m, true, aid,
      reconcile_loc loc_rt ⟨loc_cat.filename, loc_cat.classname, 0, 0⟩, d⟩,
      by rw [h2], ?_, ?_, rfl⟩
    · exact (reconcile_loc_spec _ _).1
    · exact (reconcile_loc_spec _ _).2.1
  · simp [h3, h2, h1]
  · simp [h3, tracker_get]

/-- A sequence of runtime (`hit=true`) calls to `assert_impl` on one
identity: the fixed message, details, location, `must_hit` and type strings
are shared and each list element supplies that call's condition. -/
def runCalls {α : Type} (m : String) (d : α) (loc : LocInfo) (mh : Bool)
    (ty dy aid : String) : List Bool → SDKState α → SDKState α
  | [], s => s
  | c :: cs, s =>
      runCalls m d loc mh ty dy aid cs
        (assert_impl c m d loc true mh ty dy aid s)

/-- One runtime passing call on a state whose tracker holds exactly the
call's identity: the pass counter is bumped and the event is appended exactly
when the counter started at zero. -/
lemma assert_impl_singleton_true {α : Type} (m : String) (d : α)
    (loc : LocInfo) (mh : Bool) (ty dy aid fn cn : String) (p q : Nat)
    (out : List (AssertInfo α)) :
    assert_impl true m d loc true mh ty dy aid ⟨[(aid, ⟨fn, cn, p, q⟩)], out⟩
      = ⟨[(aid, ⟨fn, cn, p + 1, q⟩)],
          if p = 0 then
            out ++ [⟨true, mh, ty, dy, m, true, aid,
              reconcile_loc loc ⟨fn, cn, p, q⟩, d⟩]
          else out⟩ := by
  simp only [assert_impl, get_tracker_entry, tracker_get, tracker_set,
    TrackerInfo.inc_passes]
  by_cases hp : p = 0 <;> simp [hp]

/-- One runtime failing call on a state whose tracker holds exactly the
call's identity: the fail counter is bumped and the event is appended exactly
when the counter started at zero. -/
lemma assert_impl_singleton_false {α : Type} (m : String) (d : α)
    (loc : LocInfo) (mh : Bool) (ty dy aid fn cn : String) (p q : Nat)
    (out : List (AssertInfo α)) :
    assert_impl false m d loc true mh ty dy aid ⟨[(aid, ⟨fn, cn, p, q⟩)], out⟩
      = ⟨[(aid, ⟨fn, cn, p, q + 1⟩)],
          if q = 0 then
            out ++ [⟨true, mh, ty, dy, m, false, aid,
              reconcile_loc loc ⟨fn, cn, p, q⟩, d⟩]
          else out⟩ := by
  simp only [assert_impl, get_tracker_entry, tracker_get, tracker_set,
    TrackerInfo.inc_fails]
  by_cases hq : q = 0 <;> simp [hq]

/-- Counting invariant for `runCalls` on a singleton tracker: counters absorb
the number of true/false conditions, and one pass (resp. fail) event is
appended exactly when the pass (resp. fail) counter started at zero and the
sequence contains a matching condition. -/
lemma runCalls_counts {α : Type} (m : String) (d : α) (loc : LocInfo)
    (mh : Bool) (ty dy aid fn cn : String) (cs : List Bool) :
    ∀ (p q : Nat) (out : List (AssertInfo α)),
      (runCalls m d loc mh ty dy aid cs
          ⟨[(aid, ⟨fn, cn, p, q⟩)], out⟩).tracker
        = [(aid, ⟨fn, cn, p + cs.count true, q + cs.count false⟩)] ∧
      (runCalls m d loc mh ty dy aid cs
          ⟨[(aid, ⟨fn, cn, p, q⟩)], out⟩).emitted.countP (fun e => e.cond)
        = out.countP (fun e => e.cond)
            + (if p = 0 ∧ true ∈ cs then 1 else 0) ∧
      (runCalls m d loc mh ty dy aid cs
          ⟨[(aid, ⟨fn, cn, p, q⟩)], out⟩).emitted.countP (fun e => !e.cond)
        = out.countP (fun e => !e.cond)
            + (if q = 0 ∧ false ∈ cs then 1 else 0) := by
  induction cs with
  | nil => intro p q out; simp [runCalls]
  | cons c cs ih =>
      intro p q out
      rw [show runCalls m d loc mh ty dy aid (c :: cs)
            ⟨[(aid, ⟨fn, cn, p, q⟩)], out⟩
          = runCalls m d loc mh ty dy aid cs
              (assert_impl c m d loc true mh ty dy aid
                ⟨[(aid, ⟨fn, cn, p, q⟩)], out⟩) from rfl]
      cases c
      · rw [assert_impl_singleton_false]
        by_cases hq : q = 0
        · rw [if_pos hq]
          obtain ⟨h1, h2, h3⟩ := ih p (q + 1)
            (out ++ [⟨true, mh, ty, dy, m, false, aid,
              reconcile_loc loc ⟨fn, cn, p, q⟩, d⟩])
          refine ⟨?_, ?_, ?_⟩
          · rw [h1]
            (simp [List.count_cons, TrackerInfo.mk.injEq]; omega)
          · rw [h2]
            simp [List.countP_append]
          · rw [h3]
            simp [List.countP_append, hq]
        · rw [if_neg hq]
          obtain ⟨h1, h2, h3⟩ := ih p (q + 1) out
          refine ⟨?_, ?_, ?_⟩
          · rw [h1]
            (simp [List.count_cons, TrackerInfo.mk.injEq]; omega)
          · rw [h2]
            simp
          · rw [h3]
            simp [hq]
      · rw [assert_impl_singleton_true]
        by_cases hp : p = 0
        · rw [if_pos hp]
          obtain ⟨h1, h2, h3⟩ := ih (p + 1) q
            (out ++ [⟨true, mh, ty, dy, m, true, aid,
              reconcile_loc loc ⟨fn, cn, p, q⟩, d⟩])
          refine ⟨?_, ?_, ?_⟩
          · rw [h1]
            (simp [List.count_cons, TrackerInfo.mk.injEq]; omega)
          · rw [h2]
            simp [List.countP_append, hp]
          · rw [h3]
            simp [List.countP_append]
        · rw [if_neg hp]
          obtain ⟨h1, h2, h3⟩ := ih (p + 1) q out
          refine ⟨?_, ?_, ?_⟩
          · rw [h1]
            (simp [List.count_cons, TrackerInfo.mk.injEq]; omega)
          · rw [h2]
            simp [hp]
          · rw [h3]
            simp

/-- The first runtime passing call on a completely fresh state registers the
identity with the call site's filename/class, sets the pass counter to 1 and
emits the event. -/
lemma assert_impl_fresh_true {α : Type} (m : String) (d : α)
    (loc : LocInfo) (mh : Bool) (ty dy aid : String) :
    assert_impl true m d loc true mh ty dy aid (initState (α := α))
      = ⟨[(aid, ⟨loc.filename, loc.classname, 1, 0⟩)],
          [⟨true, mh, ty, dy, m, true, aid, loc, d⟩]⟩ := by
  simp [assert_impl, initState, get_tracker_entry, tracker_get, tracker_set,
    TrackerInfo.inc_passes, reconcile_loc_self]

/-- The first runtime failing call on a completely fresh state registers the
identity with the call site's filename/class, sets the fail counter to 1 and
emits the event. -/
lemma assert_impl_fresh_false {α : Type} (m : String) (d : α)
    (loc : LocInfo) (mh : Bool) (ty dy aid : String) :
    assert_impl false m d loc true mh ty dy aid (initState (α := α))
      = ⟨[(aid, ⟨loc.filename, loc.classname, 0, 1⟩)],
          [⟨true, mh, ty, dy, m, false, aid, loc, d⟩]⟩ := by
  simp [assert_impl, initState, get_tracker_entry, tracker_get, tracker_set,
    TrackerInfo.inc_fails, reconcile_loc_self]

/-- C1: over any sequence of runtime (`hit=true`) `assert_impl` calls on one
identity containing at least one true and at least one false condition,
exactly one pass event and exactly one fail event are emitted in total,
whatever the order and number of calls, while the tracker's counters record
every call: passes equals the number of true conditions and fails the number
of false conditions. -/
theorem C1_first_pass_first_fail {α : Type} (m : String) (d : α)
    (loc : LocInfo) (mh : Bool) (ty dy aid : String) (cs : List Bool)
    (hT : true ∈ cs) (hF : false ∈ cs) :
    (runCalls m d loc mh ty dy aid cs
        (initState (α := α))).emitted.countP (fun e => e.cond) = 1 ∧
    (runCalls m d loc mh ty dy aid cs
        (initState (α := α))).emitted.countP (fun e => !e.cond) = 1 ∧
    tracker_get (runCalls m d loc mh ty dy aid cs
        (initState (α := α))).tracker aid
      = some ⟨loc.filename, loc.classname, cs.count true, cs.count false⟩ := by
  cases cs with
  | nil => cases hT
  | cons c cs =>
      rw [show runCalls m d loc mh ty dy aid (c :: cs) (initState (α := α))
          = runCalls m d loc mh ty dy aid cs
              (assert_impl c m d loc true mh ty dy aid (initState (α := α)))
          from rfl]
      cases c
      · have hT' : true ∈ cs := by simpa using hT
        rw [assert_impl_fresh_false]
        obtain ⟨h1, h2, h3⟩ := runCalls_counts m d loc mh ty dy aid
          loc.filename loc.classname cs 0 1
          [⟨true, mh, ty, dy, m, false, aid, loc, d⟩]
        refine ⟨?_, ?_, ?_⟩
        · rw [h2]; simp [hT']
        · rw [h3]; simp
        · rw [h1]
          (simp [tracker_get, List.count_cons, TrackerInfo.mk.injEq]; omega)
      · have hF' : false ∈ cs := by simpa using hF
        rw [assert_impl_fresh_true]
        obtain ⟨h1, h2, h3⟩ := runCalls_counts m d loc mh ty dy aid
          loc.filename loc.classname cs 1 0
          [⟨true, mh, ty, dy, m, true, aid, loc, d⟩]
        refine ⟨?_, ?_, ?_⟩
        · rw [h2]; simp
        · rw [h3]; simp [hF']
        · rw [h1]
          (simp [tracker_get, List.count_cons, TrackerInfo.mk.injEq]; omega)

/-- C1 witness: the sequence true, true, false, true, false on one identity
emits exactly one pass event and one fail event and leaves counters (3, 2). -/
theorem C1_first_pass_first_fail_witness :
    (true ∈ [true, true, false, true, false] ∧
     false ∈ [true, true, false, true, false]) ∧
    (runCalls "m" () ⟨"a.py", "f", "", 3, 0⟩ true "always" "Always" "m"
        [true, true, false, true, false]
        (initState (α := Unit))).emitted.countP (fun e => e.cond) = 1 ∧
    (runCalls "m" () ⟨"a.py", "f", "", 3, 0⟩ true "always" "Always" "m"
        [true, true, false, true, false]
        (initState (α := Unit))).emitted.countP (fun e => !e.cond) = 1 ∧
    tracker_get (runCalls "m" () ⟨"a.py", "f", "", 3, 0⟩ true "always"
        "Always" "m" [true, true, false, true, false]
        (initState (α := Unit))).tracker "m"
      = some ⟨"a.py", "", 3, 2⟩ := by
  have h := C1_first_pass_first_fail (α := Unit) "m" ()
    ⟨"a.py", "f", "", 3, 0⟩ true "always" "Always" "m"
    [true, true, false, true, false] (by decide) (by decide)
  exact ⟨⟨by decide, by decide⟩, h.1, h.2.1, h.2.2⟩

end Antithesis

